import Mathlib

/-!
Shallow embedding of the big-roofs pipeline (src/script.py): geometry
construction (polygon_from_geom), metric computation (area_m2_in_lv95,
perimeter_m_in_lv95, calc_compactness), candidate construction
(build_candidate), ranking (rank_and_filter) and the Overpass endpoint
failover (overpass_query).

Modelling conventions:
* Python floats are modelled as rationals (ℚ); the float constant math.pi
  is modelled exactly as the IEEE-754 double it denotes (machinePi).
* The third-party geometry/projection libraries (shapely, pyproj) are not
  part of the repository; their entry points used by the script are
  modelled by a record of functions (GeoBackend) that theorems quantify
  over, except where shapely semantics are fixed and simple: a shapely
  geometry is a list of exterior rings (one ring = a Polygon, several =
  a MultiPolygon, none = empty), ring area is half the absolute shoelace
  sum, and the .exterior attribute exists only on a single-ring geometry
  (on a multi-part geometry the attribute access raises, modelled by
  Except.error).
* Python exceptions are modelled with Except String; the try/except in
  polygon_from_geom maps any error to none, exactly as in the source.
-/

deriving instance DecidableEq for Except

/-- A planar point (x, y), as shapely stores coordinates. -/
abbrev Pt : Type := ℚ × ℚ

/-- Cross product term of the shoelace formula for one edge p→q. -/
def cross2 (p q : Pt) : ℚ := p.1 * q.2 - q.1 * p.2

/-- Sum of f over adjacent pairs of a list (edges of a ring given closed). -/
def sumAdj (f : Pt → Pt → ℚ) : List Pt → ℚ
  | p :: q :: rest => f p q + sumAdj f (q :: rest)
  | _ => 0

/-- Doubled signed area of a closed ring (shoelace sum over its edges). -/
def shoelace2 (r : List Pt) : ℚ := sumAdj cross2 r

/-- Absolute value on ℚ, written out so that concrete instances evaluate
by kernel reduction. -/
def ratAbs (q : ℚ) : ℚ := if q < 0 then -q else q

/-- Shapely ring/polygon area: half the absolute shoelace sum (GEOS reports
unsigned area, and a self-intersecting ring gets the absolute value of its
net signed area). -/
def ringArea (r : List Pt) : ℚ := ratAbs (shoelace2 r) / 2

/-- A shapely geometry, as the script can observe it: a list of exterior
rings. [r] is a Polygon, two or more rings a MultiPolygon, [] empty. -/
abbrev Geom : Type := List (List Pt)

/-- Shapely .area of a geometry: sum of its parts. -/
def geomArea (g : Geom) : ℚ := (g.map ringArea).sum

/-- Shapely .is_empty. -/
def geomIsEmpty (g : Geom) : Bool := g.isEmpty

/-- Shapely .exterior: defined on a Polygon, an attribute error on a
multi-part geometry. -/
def exteriorCoords : Geom → Except String (List Pt)
  | [r] => Except.ok r
  | _ => Except.error "AttributeError: geometry has no exterior"

/-- An Overpass geometry vertex: a point with lat/lon members. -/
structure GeoPt where
  lat : ℚ
  lon : ℚ
deriving DecidableEq, Repr

/-- The library functions the script calls, abstracted: the pyproj
transform to LV95, float sqrt (for shapely .length), the shapely Polygon
constructor (which can raise), validity test and make_valid repair (which
returns an arbitrary, possibly multi-part geometry), and float formatting
used only in link strings. -/
structure GeoBackend where
  proj : Pt → Pt
  sqrtFn : ℚ → ℚ
  construct : List Pt → Except String Geom
  is_valid : Geom → Bool
  make_valid : Geom → Except String Geom
  fmt6 : ℚ → String

/-- Overpass element as the script reads it: type, id, tags and the vertex
list under the geometry (or geom) key. -/
structure OverpassElement where
  osm_type : String
  osm_id : Int
  tags : List (String × String)
  geometry : Option (List GeoPt)
  geom : Option (List GeoPt)
deriving DecidableEq, Repr

/-- el.get(geometry) or el.get(geom): the second key is consulted when the
first is missing or holds an empty (falsy) list. -/
def getGeomField (el : OverpassElement) : Option (List GeoPt) :=
  match el.geometry with
  | some g => if g.isEmpty then el.geom else some g
  | none => el.geom

/-- Extract (lon, lat) pairs: shapely wants x = lon, y = lat. -/
def toCoords (g : List GeoPt) : List Pt := g.map fun p => (p.lon, p.lat)

/-- Close the ring if needed: append the first vertex when it differs from
the last (coords[0] != coords[-1] in the source). -/
def closeRing (coords : List Pt) : List Pt :=
  match coords.head?, coords.getLast? with
  | some h, some l => if h ≠ l then coords ++ [h] else coords
  | _, _ => coords

/-- Polygon construction followed by validity repair: poly = Polygon(coords);
if not poly.is_valid: poly = make_valid(poly). Errors propagate (they are
caught by the caller). -/
def buildGeom (B : GeoBackend) (coords : List Pt) : Except String Geom :=
  match B.construct coords with
  | Except.error e => Except.error e
  | Except.ok poly =>
      if B.is_valid poly then Except.ok poly else B.make_valid poly

/-- The guarded tail of polygon_from_geom: the try block builds/repairs the
geometry (any exception gives None), then rejects empty and zero-area
results. -/
def polyCheck (B : GeoBackend) (coords : List Pt) : Option Geom :=
  match buildGeom B coords with
  | Except.error _ => none
  | Except.ok poly =>
      if geomIsEmpty poly ∨ geomArea poly = 0 then none else some poly

/-- polygon_from_geom: None for a missing, empty or short vertex list,
otherwise close the (lon, lat) ring and run the guarded construction. -/
def polygon_from_geom (B : GeoBackend) : Option (List GeoPt) → Option Geom
  | none => none
  | some g =>
      if g.length < 3 then none
      else polyCheck B (closeRing (toCoords g))

/-- The double-precision value of math.pi, exactly: 884279719003555 / 2^48. -/
def machinePi : ℚ := 884279719003555 / 281474976710656

/-- Polsby-Popper compactness: 4*pi*A / P^2, and 0 for a zero perimeter. -/
def calc_compactness (area perimeter : ℚ) : ℚ :=
  if perimeter = 0 then 0 else 4 * machinePi * area / (perimeter * perimeter)

/-- area_m2_in_lv95: project every exterior vertex to LV95, build the planar
ring (the Polygon constructor closes an open ring) and take the absolute
area. The .exterior access raises on a multi-part geometry. -/
def area_m2_in_lv95 (B : GeoBackend) (poly : Geom) : Except String ℚ :=
  match exteriorCoords poly with
  | Except.error e => Except.error e
  | Except.ok ext => Except.ok (ratAbs (ringArea (closeRing (ext.map B.proj))))

/-- perimeter_m_in_lv95: shapely .length of the projected ring, the sum of
Euclidean edge lengths (float sqrt abstracted in the backend). -/
def perimeter_m_in_lv95 (B : GeoBackend) (poly : Geom) : Except String ℚ :=
  match exteriorCoords poly with
  | Except.error e => Except.error e
  | Except.ok ext =>
      Except.ok (sumAdj
        (fun p q => B.sqrtFn ((q.1 - p.1) ^ 2 + (q.2 - p.2) ^ 2))
        (closeRing (ext.map B.proj)))

/-- Area-weighted centroid of a simple ring (the standard polygon centroid
formula shapely computes). -/
def ringCentroid (r : List Pt) : Pt :=
  let a2 := shoelace2 r
  (sumAdj (fun p q => (p.1 + q.1) * cross2 p q) r / (3 * a2),
   sumAdj (fun p q => (p.2 + q.2) * cross2 p q) r / (3 * a2))

/-- Shapely .centroid as build_candidate can reach it: by the time the
centroid is taken, the earlier .exterior access has already succeeded, so
the geometry is a single ring. -/
def geomCentroid : Geom → Pt
  | [r] => ringCentroid r
  | _ => (0, 0)

/-- Substring containment (the Python `in` test on strings). -/
def strContains (s sub : String) : Bool :=
  (List.range (s.toList.length + 1)).any fun i =>
    List.isPrefixOf sub.toList (s.toList.drop i)

/-- The classifier table of guess_building_class, in source (insertion)
order — Python dicts iterate in insertion order. -/
def mapping_guess : List (String × String) :=
  [("industrial", "industrial"), ("warehouse", "warehouse"),
   ("retail", "retail"), ("commercial", "commercial"),
   ("supermarket", "retail"), ("school", "public"),
   ("university", "public"), ("hospital", "public"),
   ("kindergarten", "public"), ("public", "public"),
   ("garage", "industrial"), ("manufacture", "industrial"),
   ("factory", "industrial")]

/-- guess_building_class: None for a missing or empty building tag,
otherwise the first table entry whose key occurs in the lowercased tag,
defaulting to other. (Defined in the script but never called by
build_candidate.) -/
def guess_building_class (tags : List (String × String)) : Option String :=
  match tags.lookup "building" with
  | none => none
  | some b =>
      if b = "" then none
      else
        match mapping_guess.find? (fun kv => strContains b.toLower kv.1) with
        | some kv => some kv.2
        | none => some "other"

/-- The score heuristic of build_candidate: 0.7 * area + 0.3 * (compactness
rescaled by 10000). -/
def score_heuristic (area compact : ℚ) : ℚ :=
  0.7 * area + 0.3 * (compact * 10000)

/-- The candidate record the script builds. -/
structure RoofCandidate where
  osm_type : String
  osm_id : Int
  name : Option String
  building : Option String
  area_m2 : ℚ
  compactness : ℚ
  score : ℚ
  centroid_lat : ℚ
  centroid_lon : ℚ
  google_maps : String
  osm_url : String
deriving DecidableEq, Repr

/-- build_candidate: None when polygon_from_geom rejects the geometry;
otherwise metrics, centroid, verbatim name/building tags, the score
heuristic and the two link strings. Library exceptions (Except.error) are
not caught here — only polygon_from_geom has a try/except. -/
def build_candidate (B : GeoBackend) (el : OverpassElement) :
    Except String (Option RoofCandidate) :=
  match polygon_from_geom B (getGeomField el) with
  | none => Except.ok none
  | some poly =>
      match area_m2_in_lv95 B poly with
      | Except.error e => Except.error e
      | Except.ok area_m2 =>
          match perimeter_m_in_lv95 B poly with
          | Except.error e => Except.error e
          | Except.ok perim_m =>
              let compact := calc_compactness area_m2 perim_m
              let centroid := geomCentroid poly
              Except.ok (some
                { osm_type := el.osm_type
                  osm_id := el.osm_id
                  name := el.tags.lookup "name"
                  building := el.tags.lookup "building"
                  area_m2 := area_m2
                  compactness := compact
                  score := score_heuristic area_m2 compact
                  centroid_lat := centroid.2
                  centroid_lon := centroid.1
                  google_maps :=
                    "https://www.google.com/maps/search/?api=1&query=" ++
                    B.fmt6 centroid.2 ++ "%2C" ++ B.fmt6 centroid.1
                  osm_url :=
                    "https://www.openstreetmap.org/" ++ el.osm_type ++ "/" ++
                    toString el.osm_id })

/-- The two-key comparator of rank_and_filter: the sort key is the tuple
(-area_m2, -score) compared lexicographically, so a may precede b exactly
when b.area < a.area, or the areas tie and b.score <= a.score. -/
def rankRel (a b : RoofCandidate) : Prop :=
  b.area_m2 < a.area_m2 ∨ (a.area_m2 = b.area_m2 ∧ b.score ≤ a.score)

instance : DecidableRel rankRel := fun a b =>
  inferInstanceAs
    (Decidable (b.area_m2 < a.area_m2 ∨ (a.area_m2 = b.area_m2 ∧ b.score ≤ a.score)))

/-- rank_and_filter: keep candidates of area at least min_area, stable-sort
by (-area, -score) (Python list.sort is stable; modelled by insertion
sort, which yields the same list as any stable sort for this total
preorder), truncate to limit. -/
def rank_and_filter (cands : List RoofCandidate) (min_area : ℚ) (limit : ℕ) :
    List RoofCandidate :=
  (List.insertionSort rankRel
    (cands.filter fun c => decide (min_area ≤ c.area_m2))).take limit

/-- The endpoint list of the script. -/
def OVERPASS_ENDPOINTS : List String :=
  ["https://overpass-api.de/api/interpreter",
   "https://overpass.kumi.systems/api/interpreter",
   "https://overpass.openstreetmap.ru/api/interpreter"]

/-- The final RuntimeError of overpass_query, referencing the last recorded
failure cause (None when no endpoint was attempted). -/
inductive OverpassFailure where
  | unreachable : Option String → OverpassFailure
deriving DecidableEq, Repr

/-- The endpoint loop of overpass_query: try each endpoint once, in order;
return on the first success; remember the latest failure; after the list is
exhausted raise referencing the last failure. The first component records
the endpoints attempted, in order. -/
def overpassGo (attempt : String → Except String String) :
    List String → Option String → List String × Except OverpassFailure String
  | [], last => ([], Except.error (OverpassFailure.unreachable last))
  | ep :: rest, _ =>
      match attempt ep with
      | Except.ok r => ([ep], Except.ok r)
      | Except.error e =>
          let next := overpassGo attempt rest (some e)
          (ep :: next.1, next.2)

/-- overpass_query over the configured endpoints; the network call
(requests.post + raise_for_status + json decoding) is abstracted as the
attempt function, which either yields the decoded response or fails. -/
def overpass_query (attempt : String → Except String String) :
    List String × Except OverpassFailure String :=
  overpassGo attempt OVERPASS_ENDPOINTS none

/-! Fixtures used by the concrete instances and witnesses below: a backend
whose construction wraps the ring into a single polygon and accepts it as
valid (what GEOS does on a simple non-degenerate ring), with the
projection abstracted to the identity and float sqrt to the zero
function (no claim constrains their values). -/

/-- A concrete executable backend for witnesses. -/
def wBackend : GeoBackend :=
  { proj := id, sqrtFn := fun _ => 0,
    construct := fun c => Except.ok [c],
    is_valid := fun _ => true,
    make_valid := fun g => Except.ok g,
    fmt6 := fun _ => "" }

/-- A concrete non-degenerate triangle (three non-collinear vertices). -/
def wTriangle : List GeoPt := [⟨0, 0⟩, ⟨0, 2⟩, ⟨2, 0⟩]

/-- A concrete Overpass way element carrying the triangle. -/
def wElement : OverpassElement :=
  { osm_type := "way", osm_id := 1,
    tags := [("name", "Hall"), ("building", "supermarket")],
    geometry := some wTriangle, geom := none }

/-- The candidate wBackend/wElement produce (perimeter 0 under the zero
sqrt, hence compactness 0 and score 0.7 * 2). -/
def wCand : RoofCandidate :=
  { osm_type := "way", osm_id := 1,
    name := some "Hall", building := some "supermarket",
    area_m2 := 2, compactness := 0, score := 7 / 5,
    centroid_lat := 2 / 3, centroid_lon := 2 / 3,
    google_maps := "https://www.google.com/maps/search/?api=1&query=%2C",
    osm_url := "https://www.openstreetmap.org/way/1" }

/-! Helper lemmas about the shoelace sum and ring closing, used for the
winding-invariance claim. -/

theorem ratAbs_eq_abs (q : ℚ) : ratAbs q = |q| := by
  unfold ratAbs
  split
  · exact (abs_of_neg (by assumption)).symm
  · exact (abs_of_nonneg (not_lt.mp (by assumption))).symm

theorem ratAbs_nonneg (q : ℚ) : 0 ≤ ratAbs q := by
  rw [ratAbs_eq_abs]; exact abs_nonneg q

theorem ratAbs_neg (q : ℚ) : ratAbs (-q) = ratAbs q := by
  rw [ratAbs_eq_abs, ratAbs_eq_abs, abs_neg]

theorem cross2_antisymm (p q : Pt) : cross2 q p = -cross2 p q := by
  unfold cross2; ring

theorem sumAdj_cons_cons (f : Pt → Pt → ℚ) (p q : Pt) (l : List Pt) :
    sumAdj f (p :: q :: l) = f p q + sumAdj f (q :: l) := rfl

theorem sumAdj_append_last (f : Pt → Pt → ℚ) :
    ∀ (l : List Pt) (x : Pt),
      sumAdj f (l ++ [x]) =
        sumAdj f l + (match l.getLast? with | some y => f y x | none => 0)
  | [], x => by simp [sumAdj]
  | [p], x => by simp [sumAdj]
  | p :: q :: t, x => by
      have ih := sumAdj_append_last f (q :: t) x
      rw [List.cons_append, List.cons_append, sumAdj_cons_cons,
        ← List.cons_append, ih, sumAdj_cons_cons, List.getLast?_cons_cons]
      ring

theorem shoelace2_reverse : ∀ l : List Pt, shoelace2 l.reverse = -shoelace2 l
  | [] => by simp [shoelace2, sumAdj]
  | p :: t => by
      have ih := shoelace2_reverse t
      unfold shoelace2 at *
      rw [List.reverse_cons, sumAdj_append_last, ih, List.getLast?_reverse]
      cases t with
      | nil => simp [sumAdj]
      | cons q t2 =>
          simp only [List.head?_cons, sumAdj]
          rw [cross2_antisymm]
          ring

theorem shoelace2_closeRing_reverse (l : List Pt) :
    shoelace2 (closeRing l.reverse) = -shoelace2 (closeRing l) := by
  cases l with
  | nil => simp [closeRing, shoelace2, sumAdj]
  | cons p t =>
      have hne : (p :: t) ≠ [] := by simp
      obtain ⟨y, hy⟩ : ∃ y, (p :: t).getLast? = some y :=
        ⟨(p :: t).getLast hne, List.getLast?_eq_getLast _ hne⟩
      by_cases hpy : p = y
      · subst hpy
        simp only [closeRing, List.head?_reverse, List.getLast?_reverse, hy,
          List.head?_cons, ne_eq, not_true_eq_false, if_false, ite_false]
        exact shoelace2_reverse (p :: t)
      · simp only [closeRing, List.head?_reverse, List.getLast?_reverse, hy,
          List.head?_cons, ne_eq]
        rw [if_pos (fun h => hpy h.symm), if_pos hpy]
        unfold shoelace2
        rw [sumAdj_append_last, sumAdj_append_last, List.getLast?_reverse, hy]
        simp only [List.head?_cons]
        have hrev := shoelace2_reverse (p :: t)
        unfold shoelace2 at hrev
        rw [hrev, cross2_antisymm]
        ring

theorem ringArea_closeRing_reverse (l : List Pt) :
    ringArea (closeRing l.reverse) = ringArea (closeRing l) := by
  unfold ringArea
  rw [shoelace2_closeRing_reverse, ratAbs_neg]

/-- C5: the computed area_m2 is identical whether the exterior ring is
given clockwise or counter-clockwise: area_m2_in_lv95 is the absolute
value of the signed (shoelace) area of the projected planar ring, hence
reversal-invariant and non-negative. -/
theorem area_m2_winding_invariant (B : GeoBackend) (r : List Pt) :
    area_m2_in_lv95 B [r.reverse] = area_m2_in_lv95 B [r]
    ∧ area_m2_in_lv95 B [r] =
        Except.ok (ratAbs (ringArea (closeRing (r.map B.proj))))
    ∧ ∀ a, area_m2_in_lv95 B [r] = Except.ok a → 0 ≤ a := by
  refine ⟨?_, rfl, ?_⟩
  · show Except.ok (ratAbs (ringArea (closeRing (r.reverse.map B.proj)))) =
        Except.ok (ratAbs (ringArea (closeRing (r.map B.proj))))
    rw [List.map_reverse, ringArea_closeRing_reverse]
  · intro a ha
    have h2 : ratAbs (ringArea (closeRing (r.map B.proj))) = a :=
      Except.ok.inj ha
    rw [← h2]
    exact ratAbs_nonneg _

/-- C6: calc_compactness is total, equals the Polsby-Popper index
4*pi*area/perimeter^2 whenever the perimeter is non-zero (pi being the
exact double value of math.pi), and equals 0 at perimeter 0. -/
theorem calc_compactness_spec (a p : ℚ) (h : p ≠ 0) :
    calc_compactness a p = 4 * machinePi * a / (p * p)
    ∧ calc_compactness a 0 = 0 := by
  constructor
  · unfold calc_compactness; rw [if_neg h]
  · unfold calc_compactness; rw [if_pos rfl]

/-- Witness for C6 at area 1, perimeter 2. -/
theorem calc_compactness_spec_witness :
    calc_compactness 1 2 = 4 * machinePi * 1 / (2 * 2)
    ∧ calc_compactness 1 0 = 0 :=
  calc_compactness_spec 1 2 (by norm_num)

instance : IsTotal RoofCandidate rankRel := by
  constructor
  intro a b
  rcases lt_trichotomy a.area_m2 b.area_m2 with h | h | h
  · exact Or.inr (Or.inl h)
  · rcases le_total a.score b.score with hs | hs
    · exact Or.inr (Or.inr ⟨h.symm, hs⟩)
    · exact Or.inl (Or.inr ⟨h, hs⟩)
  · exact Or.inl (Or.inl h)

instance : IsTrans RoofCandidate rankRel := by
  constructor
  intro a b c hab hbc
  rcases hab with h1 | ⟨e1, s1⟩ <;> rcases hbc with h2 | ⟨e2, s2⟩
  · exact Or.inl (h2.trans h1)
  · exact Or.inl (by rw [← e2]; exact h1)
  · exact Or.inl (by rw [e1]; exact h2)
  · exact Or.inr ⟨e1.trans e2, s2.trans s1⟩

/-- A bare candidate with the given area and score (the other fields play
no role in ranking). -/
def mkCand (area score : ℚ) : RoofCandidate :=
  { osm_type := "way", osm_id := 0, name := none, building := none,
    area_m2 := area, compactness := 0, score := score,
    centroid_lat := 0, centroid_lon := 0, google_maps := "", osm_url := "" }

/-- The spec's ranking example, one input order. -/
def demoA : List RoofCandidate :=
  [mkCand 50 35, mkCand 200 150, mkCand 200 141, mkCand 80 60]

/-- The spec's ranking example, another input order. -/
def demoB : List RoofCandidate :=
  [mkCand 200 141, mkCand 80 60, mkCand 50 35, mkCand 200 150]

theorem insertionSort_key_stable (l : List RoofCandidate) (q s : ℚ) :
    (List.insertionSort rankRel l).filter
        (fun c => decide (c.area_m2 = q) && decide (c.score = s))
      = l.filter (fun c => decide (c.area_m2 = q) && decide (c.score = s)) := by
  set p : RoofCandidate → Bool :=
    fun c => decide (c.area_m2 = q) && decide (c.score = s) with hp
  have hpair : (l.filter p).Pairwise rankRel := by
    apply List.pairwise_of_forall_mem_list
    intro a ha b hb
    have ha2 := (List.mem_filter.mp ha).2
    have hb2 := (List.mem_filter.mp hb).2
    simp only [hp, Bool.and_eq_true, decide_eq_true_eq] at ha2 hb2
    exact Or.inr ⟨ha2.1.trans hb2.1.symm, le_of_eq (hb2.2.trans ha2.2.symm)⟩
  have hsub : List.Sublist (l.filter p) (List.insertionSort rankRel l) :=
    List.sublist_insertionSort hpair (List.filter_sublist l)
  have hperm : List.Perm ((List.insertionSort rankRel l).filter p) (l.filter p) :=
    List.Perm.filter p (List.perm_insertionSort rankRel l)
  have hsub2 : List.Sublist (l.filter p) ((List.insertionSort rankRel l).filter p) := by
    have h3 := List.Sublist.filter p hsub
    rwa [List.filter_eq_self.mpr (fun a ha => (List.mem_filter.mp ha).2)] at h3
  exact (List.Sublist.eq_of_length hsub2 hperm.length_eq.symm).symm

/-- C1: rank_and_filter keeps exactly the candidates with area_m2 at least
minArea, stable-sorts them by area descending then score descending and
truncates to limit: the sorting pass is a permutation, sorted under the
two-key comparator, and stable (candidates with equal area and score keep
their input order); on the spec's example with areas 50/200/200/80,
minArea 100 and limit 2 the result is the two area-200 candidates in
score-descending order for either input order. -/
theorem rank_and_filter_spec (cands : List RoofCandidate) (minArea : ℚ)
    (limit : ℕ) :
    rank_and_filter cands minArea limit =
      (List.insertionSort rankRel
        (cands.filter fun c => decide (minArea ≤ c.area_m2))).take limit
    ∧ (∀ c, c ∈ cands.filter (fun c => decide (minArea ≤ c.area_m2)) ↔
        (c ∈ cands ∧ minArea ≤ c.area_m2))
    ∧ List.Perm (List.insertionSort rankRel cands) cands
    ∧ (List.insertionSort rankRel cands).Sorted rankRel
    ∧ (∀ q s : ℚ,
        (List.insertionSort rankRel cands).filter
            (fun c => decide (c.area_m2 = q) && decide (c.score = s))
          = cands.filter
            (fun c => decide (c.area_m2 = q) && decide (c.score = s)))
    ∧ rank_and_filter demoA 100 2 = [mkCand 200 150, mkCand 200 141]
    ∧ rank_and_filter demoB 100 2 = [mkCand 200 150, mkCand 200 141] := by
  refine ⟨rfl, ?_, List.perm_insertionSort rankRel cands,
    List.sorted_insertionSort rankRel cands,
    insertionSort_key_stable cands, ?_, ?_⟩
  · intro c
    simp [List.mem_filter]
  · with_unfolding_all decide
  · with_unfolding_all decide

/-- C10: rank_and_filter does not mutate its input (its embedding is a
pure function of the list) and returns only elements of the input list:
the output is a sub-permutation of the input, every returned candidate
being one of the input candidates with unchanged fields. -/
theorem rank_and_filter_no_mutation (cands : List RoofCandidate)
    (min_area : ℚ) (limit : ℕ) (c : RoofCandidate)
    (hc : c ∈ rank_and_filter cands min_area limit) :
    c ∈ cands ∧ List.Subperm (rank_and_filter cands min_area limit) cands := by
  have hsp : List.Subperm (rank_and_filter cands min_area limit) cands := by
    have h1 : List.Sublist (rank_and_filter cands min_area limit)
        (List.insertionSort rankRel
          (cands.filter fun x => decide (min_area ≤ x.area_m2))) :=
      List.take_sublist _ _
    have h2 : List.Perm (List.insertionSort rankRel
        (cands.filter fun x => decide (min_area ≤ x.area_m2)))
        (cands.filter (fun x => decide (min_area ≤ x.area_m2))) :=
      List.perm_insertionSort _ _
    have h3 : List.Sublist (cands.filter (fun x => decide (min_area ≤ x.area_m2))) cands :=
      List.filter_sublist cands
    exact (h1.subperm.trans h2.subperm).trans h3.subperm
  exact ⟨hsp.subset hc, hsp⟩

/-- Witness for C10 on the demo list. -/
theorem rank_and_filter_no_mutation_witness :
    mkCand 200 150 ∈ demoA ∧ List.Subperm (rank_and_filter demoA 100 2) demoA :=
  rank_and_filter_no_mutation demoA 100 2 (mkCand 200 150)
    (by with_unfolding_all decide)

/-- Inversion of a successful build_candidate: the polygon was accepted,
both metric computations succeeded, and the candidate is exactly the
record the source constructs from them. -/
theorem build_candidate_ok_elim (B : GeoBackend) (el : OverpassElement)
    (c : RoofCandidate) (h : build_candidate B el = Except.ok (some c)) :
    ∃ poly area perim,
      polygon_from_geom B (getGeomField el) = some poly
      ∧ area_m2_in_lv95 B poly = Except.ok area
      ∧ perimeter_m_in_lv95 B poly = Except.ok perim
      ∧ c = { osm_type := el.osm_type, osm_id := el.osm_id,
              name := el.tags.lookup "name",
              building := el.tags.lookup "building",
              area_m2 := area,
              compactness := calc_compactness area perim,
              score := score_heuristic area (calc_compactness area perim),
              centroid_lat := (geomCentroid poly).2,
              centroid_lon := (geomCentroid poly).1,
              google_maps :=
                "https://www.google.com/maps/search/?api=1&query=" ++
                B.fmt6 (geomCentroid poly).2 ++ "%2C" ++
                B.fmt6 (geomCentroid poly).1,
              osm_url :=
                "https://www.openstreetmap.org/" ++ el.osm_type ++ "/" ++
                toString el.osm_id } := by
  unfold build_candidate at h
  cases hp : polygon_from_geom B (getGeomField el) with
  | none => simp [hp] at h
  | some poly =>
      simp only [hp] at h
      cases ha : area_m2_in_lv95 B poly with
      | error e => simp [ha] at h
      | ok area =>
          simp only [ha] at h
          cases hpe : perimeter_m_in_lv95 B poly with
          | error e => simp [hpe] at h
          | ok perim =>
              simp only [hpe, Except.ok.injEq, Option.some.injEq] at h
              exact ⟨poly, area, perim, rfl, ha, hpe, h.symm⟩

/-- C2: every candidate that build_candidate produces has
score = 0.7 * area_m2 + 0.3 * (compactness * 10000), and the score
formula yields exactly 2505 at area 150 and compactness 0.8. -/
theorem build_candidate_score_formula (B : GeoBackend) (el : OverpassElement)
    (c : RoofCandidate) (h : build_candidate B el = Except.ok (some c)) :
    c.score = 0.7 * c.area_m2 + 0.3 * (c.compactness * 10000)
    ∧ score_heuristic 150 0.8 = 2505 := by
  obtain ⟨poly, area, perim, hp, ha, hpe, hc⟩ := build_candidate_ok_elim B el c h
  constructor
  · subst hc; rfl
  · unfold score_heuristic; norm_num

/-- Witness for C2: a concrete record built end to end satisfies the
score formula. -/
theorem build_candidate_score_formula_witness :
    build_candidate wBackend wElement = Except.ok (some wCand)
    ∧ wCand.score = 0.7 * wCand.area_m2 + 0.3 * (wCand.compactness * 10000) := by
  have hb : build_candidate wBackend wElement = Except.ok (some wCand) := by
    with_unfolding_all decide
  exact ⟨hb, (build_candidate_score_formula wBackend wElement wCand hb).1⟩

/-- C9: the candidate's building field is the verbatim building tag and its
name field the verbatim name tag (absent when the tag is absent); the
classifier guess_building_class, which would map a supermarket tag to
retail, is never applied. -/
theorem build_candidate_tags_verbatim (B : GeoBackend) (el : OverpassElement)
    (c : RoofCandidate) (h : build_candidate B el = Except.ok (some c)) :
    c.building = el.tags.lookup "building"
    ∧ c.name = el.tags.lookup "name"
    ∧ guess_building_class [("building", "supermarket")] = some "retail" := by
  obtain ⟨poly, area, perim, hp, ha, hpe, hc⟩ := build_candidate_ok_elim B el c h
  subst hc
  exact ⟨rfl, rfl, by with_unfolding_all decide⟩

/-- Witness for C9: the concrete supermarket-tagged record keeps its tag
verbatim (where the classifier would have yielded retail). -/
theorem build_candidate_tags_verbatim_witness :
    build_candidate wBackend wElement = Except.ok (some wCand)
    ∧ wCand.building = wElement.tags.lookup "building"
    ∧ wCand.name = wElement.tags.lookup "name" := by
  have hb : build_candidate wBackend wElement = Except.ok (some wCand) := by
    with_unfolding_all decide
  have h2 := build_candidate_tags_verbatim wBackend wElement wCand hb
  exact ⟨hb, h2.1, h2.2.1⟩

theorem closeRing_eq_of_head_eq_last (c : List Pt)
    (h : c.head? = c.getLast?) : closeRing c = c := by
  unfold closeRing
  cases hh : c.head? with
  | none => rfl
  | some hd =>
      cases hl : c.getLast? with
      | none => rfl
      | some l =>
          rw [hh, hl] at h
          exact if_neg (fun hne => hne (Option.some.inj h))

theorem closeRing_append_of_head_ne_last (c : List Pt) (hd : Pt)
    (hh : c.head? = some hd) (h : c.head? ≠ c.getLast?) :
    closeRing c = c ++ [hd] := by
  cases hl : c.getLast? with
  | none => rw [List.getLast?_eq_none_iff] at hl; subst hl; simp at hh
  | some l =>
      unfold closeRing
      rw [hh, hl]
      refine if_pos ?_
      intro heq
      exact h (by rw [hh, hl, heq])

theorem closeRing_closed (c : List Pt) (hne : c ≠ []) :
    (closeRing c).head? = (closeRing c).getLast? := by
  obtain ⟨hd, hh⟩ : ∃ hd, c.head? = some hd := by
    cases c with
    | nil => exact absurd rfl hne
    | cons p t => exact ⟨p, rfl⟩
  by_cases h : c.head? = c.getLast?
  · rw [closeRing_eq_of_head_eq_last c h]; exact h
  · rw [closeRing_append_of_head_ne_last c hd hh h]
    rw [List.getLast?_concat]
    cases c with
    | nil => exact absurd rfl hne
    | cons p t => simpa using hh

/-- C4: polygon_from_geom returns absent for a missing vertex list and for
any list of fewer than 3 vertices; it returns absent whenever the
constructed (possibly repaired) geometry is empty or its raw-coordinate
area is exactly zero; and on a concrete valid triangle it returns a
polygon. -/
theorem polygon_from_geom_degenerate (B : GeoBackend) :
    polygon_from_geom B none = none
    ∧ (∀ g : List GeoPt, g.length < 3 → polygon_from_geom B (some g) = none)
    ∧ (∀ (g : List GeoPt) (poly : Geom), 3 ≤ g.length →
        buildGeom B (closeRing (toCoords g)) = Except.ok poly →
        (geomIsEmpty poly = true ∨ geomArea poly = 0) →
        polygon_from_geom B (some g) = none)
    ∧ polygon_from_geom wBackend (some wTriangle) =
        some [[(0, 0), (2, 0), (0, 2), (0, 0)]] := by
  refine ⟨rfl, ?_, ?_, by with_unfolding_all decide⟩
  · intro g hg
    show (if g.length < 3 then none
      else polyCheck B (closeRing (toCoords g))) = none
    rw [if_pos hg]
  · intro g poly hg hb hdeg
    show (if g.length < 3 then none
      else polyCheck B (closeRing (toCoords g))) = none
    rw [if_neg (not_lt.mpr hg)]
    unfold polyCheck
    simp only [hb]
    exact if_pos hdeg

/-- C7: for an accepted vertex list the planar ring is built from the
(lon, lat) projections of the vertices; the first vertex is appended
exactly when first and last differ (the list is unchanged when they
agree), the resulting ring is closed, and polygon_from_geom hands exactly
this closed ring to the geometry construction. -/
theorem close_ring_spec (g : List GeoPt) (h3 : 3 ≤ g.length) :
    toCoords g = g.map (fun p => (p.lon, p.lat))
    ∧ ((toCoords g).head? = (toCoords g).getLast? →
        closeRing (toCoords g) = toCoords g)
    ∧ ((toCoords g).head? ≠ (toCoords g).getLast? →
        ∃ hd, (toCoords g).head? = some hd
          ∧ closeRing (toCoords g) = toCoords g ++ [hd])
    ∧ (closeRing (toCoords g)).head? = (closeRing (toCoords g)).getLast?
    ∧ (∀ B : GeoBackend,
        polygon_from_geom B (some g) = polyCheck B (closeRing (toCoords g))) := by
  have hne : toCoords g ≠ [] := by
    have hlen : (toCoords g).length = g.length := List.length_map g _
    intro hnil
    rw [hnil] at hlen
    simp at hlen
    omega
  refine ⟨rfl, closeRing_eq_of_head_eq_last _, ?_, closeRing_closed _ hne, ?_⟩
  · intro hneq
    obtain ⟨hd, hh⟩ : ∃ hd, (toCoords g).head? = some hd := by
      cases hcl : toCoords g with
      | nil => exact absurd hcl hne
      | cons p t => exact ⟨p, rfl⟩
    exact ⟨hd, hh, closeRing_append_of_head_ne_last _ hd hh hneq⟩
  · intro B
    show (if g.length < 3 then none
      else polyCheck B (closeRing (toCoords g))) =
      polyCheck B (closeRing (toCoords g))
    rw [if_neg (not_lt.mpr h3)]

/-- Witness for C7 at the concrete triangle (first and last vertex
differ, so the ring is closed by appending the first vertex). -/
theorem close_ring_spec_witness :
    toCoords wTriangle = wTriangle.map (fun p => (p.lon, p.lat))
    ∧ ((toCoords wTriangle).head? = (toCoords wTriangle).getLast? →
        closeRing (toCoords wTriangle) = toCoords wTriangle)
    ∧ ((toCoords wTriangle).head? ≠ (toCoords wTriangle).getLast? →
        ∃ hd, (toCoords wTriangle).head? = some hd
          ∧ closeRing (toCoords wTriangle) = toCoords wTriangle ++ [hd])
    ∧ (closeRing (toCoords wTriangle)).head? =
        (closeRing (toCoords wTriangle)).getLast?
    ∧ (∀ B : GeoBackend, polygon_from_geom B (some wTriangle) =
        polyCheck B (closeRing (toCoords wTriangle))) :=
  close_ring_spec wTriangle (by with_unfolding_all decide)

/-- A backend that repairs the self-intersecting bowtie ring the way GEOS
MakeValid does: splitting it into a two-part (multi-polygon) geometry. -/
def cexBackend : GeoBackend :=
  { proj := id, sqrtFn := fun _ => 0,
    construct := fun c => Except.ok [c],
    is_valid := fun _ => false,
    make_valid := fun _ => Except.ok
      [[(0, 0), (1, 1), (2, 0), (0, 0)], [(1, 1), (0, 2), (2, 2), (1, 1)]],
    fmt6 := fun _ => "" }

/-- A way whose footprint ring is the bowtie (0,0)-(2,2)-(2,0)-(0,2) in
(lon, lat): a self-intersecting quadrilateral. -/
def cexElement : OverpassElement :=
  { osm_type := "way", osm_id := 2, tags := [],
    geometry := some [⟨0, 0⟩, ⟨2, 2⟩, ⟨0, 2⟩, ⟨2, 0⟩], geom := none }

/-- C3 counterexample: on a self-intersecting footprint whose validity
repair returns a multi-part geometry, build_candidate propagates an
exception (the exterior attribute access inside the area computation)
instead of returning absent. -/
theorem build_candidate_multipart_error :
    build_candidate cexBackend cexElement =
      Except.error "AttributeError: geometry has no exterior" := by
  with_unfolding_all decide

/-- C3 (amended): polygon_from_geom never propagates an exception — its
try block maps every construction or repair failure to absent — and
build_candidate propagates no exception on records whose (possibly
repaired) geometry is a single-ring polygon; when repair yields a
multi-part geometry, build_candidate raises (see the counterexample). -/
theorem build_candidate_no_raise (B : GeoBackend) (el : OverpassElement)
    (hsingle : ∀ poly, polygon_from_geom B (getGeomField el) = some poly →
      ∃ r, poly = [r]) :
    (∃ o, build_candidate B el = Except.ok o)
    ∧ (∀ (g : List GeoPt) (e : String), 3 ≤ g.length →
        buildGeom B (closeRing (toCoords g)) = Except.error e →
        polygon_from_geom B (some g) = none) := by
  constructor
  · cases hp : polygon_from_geom B (getGeomField el) with
    | none => exact ⟨none, by unfold build_candidate; simp only [hp]⟩
    | some poly =>
        obtain ⟨r, hr⟩ := hsingle poly hp
        subst hr
        unfold build_candidate
        rw [hp]
        exact ⟨_, rfl⟩
  · intro g e hg hb
    show (if g.length < 3 then none
      else polyCheck B (closeRing (toCoords g))) = none
    rw [if_neg (not_lt.mpr hg)]
    unfold polyCheck
    simp only [hb]

/-- Witness for C3 (amended) on the concrete triangle record, whose built
geometry is a single ring. -/
theorem build_candidate_no_raise_witness :
    ∃ o, build_candidate wBackend wElement = Except.ok o :=
  (build_candidate_no_raise wBackend wElement (fun poly hp => by
    have hval : polygon_from_geom wBackend (getGeomField wElement) =
        some [[(0, 0), (2, 0), (0, 2), (0, 0)]] := by
      with_unfolding_all decide
    rw [hval] at hp
    exact ⟨[(0, 0), (2, 0), (0, 2), (0, 0)], (Option.some.inj hp).symm⟩)).1

theorem overpassGo_cons_error (attempt : String → Except String String)
    (e : String) (rest : List String) (last : Option String) (m : String)
    (hm : attempt e = Except.error m) :
    overpassGo attempt (e :: rest) last =
      (e :: (overpassGo attempt rest (some m)).1,
       (overpassGo attempt rest (some m)).2) := by
  simp only [overpassGo, hm]

theorem overpassGo_first_success (attempt : String → Except String String) :
    ∀ (pre : List String) (post : List String) (ep r : String)
      (last0 : Option String),
      (∀ e ∈ pre, ∃ m, attempt e = Except.error m) →
      attempt ep = Except.ok r →
      overpassGo attempt (pre ++ ep :: post) last0 = (pre ++ [ep], Except.ok r)
  | [], post, ep, r, last0, hpre, hep => by
      simp only [List.nil_append, overpassGo, hep]
  | e :: pre2, post, ep, r, last0, hpre, hep => by
      obtain ⟨m, hm⟩ := hpre e (by simp)
      have ih := overpassGo_first_success attempt pre2 post ep r (some m)
        (fun x hx => hpre x (by simp [hx])) hep
      rw [List.cons_append, overpassGo_cons_error attempt e _ last0 m hm, ih]
      rfl

theorem overpassGo_all_fail (attempt : String → Except String String) :
    ∀ (eps : List String) (last1 : Option String) (lep lm : String),
      (∀ e ∈ eps, ∃ m, attempt e = Except.error m) →
      eps.getLast? = some lep → attempt lep = Except.error lm →
      overpassGo attempt eps last1 =
        (eps, Except.error (OverpassFailure.unreachable (some lm)))
  | [], last1, lep, lm, _, hlast, _ => by simp at hlast
  | [e], last1, lep, lm, hall, hlast, hatt => by
      have he : lep = e := by simpa using hlast.symm
      subst he
      simp only [overpassGo, hatt]
  | e :: e2 :: t, last1, lep, lm, hall, hlast, hatt => by
      obtain ⟨m, hm⟩ := hall e (by simp)
      have ih := overpassGo_all_fail attempt (e2 :: t) (some m) lep lm
        (fun x hx => hall x (by simp [hx]))
        (by simpa using hlast) hatt
      rw [overpassGo_cons_error attempt e (e2 :: t) last1 m hm, ih]

/-- An attempt function for the concrete instance: the first two
configured endpoints fail, the third succeeds. -/
def demoAttempt : String → Except String String := fun ep =>
  if ep = "https://overpass.openstreetmap.ru/api/interpreter"
  then Except.ok "elements" else Except.error ("refused " ++ ep)

/-- An attempt function under which every endpoint fails. -/
def failAttempt : String → Except String String := fun ep =>
  Except.error ("timeout " ++ ep)

/-- C8: the endpoint loop attempts the endpoints strictly in order and
returns the first success without attempting any later endpoint (the
attempted trace is exactly the failing prefix plus the succeeding
endpoint, each tried once); when every endpoint fails it returns a single
error referencing the last endpoint's failure cause; on the configured
three endpoints with the first two failing, the third's response is
returned, and with all three failing the error names the third's cause. -/
theorem overpass_query_spec (attempt : String → Except String String)
    (pre post : List String) (ep r : String) (last0 : Option String)
    (hpre : ∀ e ∈ pre, ∃ m, attempt e = Except.error m)
    (hep : attempt ep = Except.ok r) :
    overpassGo attempt (pre ++ ep :: post) last0 = (pre ++ [ep], Except.ok r)
    ∧ (∀ (eps : List String) (last1 : Option String) (lep lm : String),
        (∀ e ∈ eps, ∃ m, attempt e = Except.error m) →
        eps.getLast? = some lep → attempt lep = Except.error lm →
        overpassGo attempt eps last1 =
          (eps, Except.error (OverpassFailure.unreachable (some lm))))
    ∧ overpass_query demoAttempt = (OVERPASS_ENDPOINTS, Except.ok "elements")
    ∧ overpass_query failAttempt =
        (OVERPASS_ENDPOINTS, Except.error (OverpassFailure.unreachable
          (some "timeout https://overpass.openstreetmap.ru/api/interpreter"))) := by
  refine ⟨overpassGo_first_success attempt pre post ep r last0 hpre hep,
    fun eps last1 lep lm h1 h2 h3 =>
      overpassGo_all_fail attempt eps last1 lep lm h1 h2 h3,
    by with_unfolding_all decide, by with_unfolding_all decide⟩

/-- Witness for C8: the first two configured endpoints fail and the third
succeeds; the trace is all three endpoints in order with the third's
response returned. -/
theorem overpass_query_spec_witness :
    overpassGo demoAttempt
        (["https://overpass-api.de/api/interpreter",
          "https://overpass.kumi.systems/api/interpreter"] ++
          "https://overpass.openstreetmap.ru/api/interpreter" :: []) none =
      (["https://overpass-api.de/api/interpreter",
        "https://overpass.kumi.systems/api/interpreter"] ++
        ["https://overpass.openstreetmap.ru/api/interpreter"],
       Except.ok "elements") :=
  (overpass_query_spec demoAttempt
    ["https://overpass-api.de/api/interpreter",
     "https://overpass.kumi.systems/api/interpreter"] []
    "https://overpass.openstreetmap.ru/api/interpreter" "elements" none
    (fun e he => by
      have h2 : e = "https://overpass-api.de/api/interpreter" ∨
          e = "https://overpass.kumi.systems/api/interpreter" := by
        simpa using he
      rcases h2 with h2 | h2 <;> subst h2
      · exact ⟨"refused https://overpass-api.de/api/interpreter",
          by with_unfolding_all decide⟩
      · exact ⟨"refused https://overpass.kumi.systems/api/interpreter",
          by with_unfolding_all decide⟩)
    (by with_unfolding_all decide)).1
